import Mathlib

/-!
Shallow embedding of `src/src/index.ts` (an in-memory video CRUD service).

Modelling decisions:
* JSON/JavaScript values are the inductive `Value` (undefined, null, boolean,
  number, string, array).  JSON numbers are modelled as `Int`: every number the
  program manipulates (ids from `Date.now()`, `minAgeRestriction`, timestamps)
  is an integer in the scenarios of interest.
* A JavaScript object (a request body, a stored video) is a `Payload`: an
  ordered association list of key/value pairs; property access returns
  `Value.undefined` when the key is missing, exactly as `obj[key]` does.
* The clock: each request handler runs at a single instant `now` (epoch
  milliseconds).  The source calls `Date.now()` / `new Date()` several times
  inside one handler; under synchronous single-threaded execution these reads
  are modelled as the same instant.  Timestamp fields (`createdAt`,
  `publicationDate`) are stored as their epoch-millisecond value
  (`Value.num`): `toISOString` is an injective, addition-compatible rendering
  of that value, so "+ 24 hours exactly" on the strings is `+ 86400000` here.
* The mutable module-level `videos` array is threaded explicitly: each
  operation takes the current `List Payload` and returns the new one together
  with the response.
-/

namespace BackProject

/-- A JavaScript/JSON runtime value, as handled by the validator and store. -/
inductive Value where
  | undefined
  | null
  | bool (b : Bool)
  | num (n : Int)
  | str (s : String)
  | arr (elems : List Value)
  deriving Repr

/-- `value === undefined || value === null` (line 46 of the source). -/
def absentV : Value → Bool
  | .undefined => true
  | .null => true
  | _ => false

/-- `typeof value === 'string'`. -/
def isStr : Value → Bool
  | .str _ => true
  | _ => false

/-- `Array.isArray(value)`. -/
def isArr : Value → Bool
  | .arr _ => true
  | _ => false

/-- `value.length` of a string value (only consulted on strings). -/
def strLen : Value → Nat
  | .str s => s.length
  | _ => 0

/-- The elements iterated by `for (const item of value)` (only reached when
`value` is an array). -/
def elemsV : Value → List Value
  | .arr xs => xs
  | _ => []

/-- JavaScript truthiness, as used by `x || y` in the create handler. -/
def truthy : Value → Bool
  | .undefined => false
  | .null => false
  | .bool b => b
  | .num n => !(n == 0)
  | .str s => !(s == "")
  | .arr _ => true

/-- JavaScript `a || b`. -/
def jsOr (a b : Value) : Value :=
  if truthy a then a else b

/-- `enumValues.includes(item)`: strict equality of `item` against a list of
strings, so a non-string `item` is never a member. -/
def includesValue (es : List String) : Value → Bool
  | .str s => es.contains s
  | _ => false

mutual
/-- JavaScript string interpolation `${v}` of a value, used to build the
message `Invalid <field>: <item>`. -/
def jsToString : Value → String
  | .undefined => "undefined"
  | .null => "null"
  | .bool b => cond b "true" "false"
  | .num n => toString n
  | .str s => s
  | .arr xs => jsJoin xs

/-- `Array.prototype.toString`: elements joined by commas, with `null` and
`undefined` elements rendered as the empty string. -/
def jsJoin : List Value → String
  | [] => ""
  | [Value.undefined] => ""
  | [Value.null] => ""
  | [v] => jsToString v
  | Value.undefined :: rest => "," ++ jsJoin rest
  | Value.null :: rest => "," ++ jsJoin rest
  | v :: rest => jsToString v ++ "," ++ jsJoin rest
end

/-- The `ValidationRule` record type (lines 31-39 of the source).  Optional
boolean flags default to `false` (in the source, absent flags are `undefined`,
which is falsy everywhere they are read). -/
structure ValidationRule where
  fieldName : String
  isRequired : Bool := false
  minLength : Option Nat := none
  maxLength : Option Nat := none
  isString : Bool := false
  isArray : Bool := false
  enumValues : Option (List String) := none

/-- `minLength !== undefined && value.length < minLength` and its message. -/
def minErr (fieldName : String) (len : Nat) : Option Nat → Option String
  | some m =>
      if len < m then
        some ("Invalid " ++ fieldName ++ " length (minimum " ++ toString m ++
          " characters).")
      else none
  | none => none

/-- `maxLength !== undefined && value.length > maxLength` and its message. -/
def maxErr (fieldName : String) (len : Nat) : Option Nat → Option String
  | some m =>
      if len > m then
        some ("Invalid " ++ fieldName ++ " length (maximum " ++ toString m ++
          " characters).")
      else none
  | none => none

/-- The enum loop: returns the first element of the list that is not a member
of `es` (the source reports only the first offending element). -/
def firstInvalid (es : List String) : List Value → Option Value
  | [] => none
  | v :: rest => if includesValue es v then firstInvalid es rest else some v

/-- `validateField` (lines 43-77 of the source), with the same sequence of
early returns: required check, string type check, min/max length, array type
check, enum membership loop. -/
def validateField (value : Value) (r : ValidationRule) : Option String :=
  if r.isRequired && absentV value then
    some (r.fieldName ++ " is required.")
  else if r.isString && !isStr value then
    some (r.fieldName ++ " must be a string.")
  else match (if r.isString then minErr r.fieldName (strLen value) r.minLength
              else none) with
  | some e => some e
  | none =>
    match (if r.isString then maxErr r.fieldName (strLen value) r.maxLength
           else none) with
    | some e => some e
    | none =>
      if r.isArray && !isArr value then
        some (r.fieldName ++ " must be an array.")
      else
        match r.enumValues with
        | some es =>
            if r.isArray then
              match firstInvalid es (elemsV value) with
              | some bad =>
                  some ("Invalid " ++ r.fieldName ++ ": " ++ jsToString bad)
              | none => none
            else none
        | none => none

/-- A JavaScript object: ordered key/value pairs (a parsed JSON body, or a
stored video record). -/
abbrev Payload := List (String × Value)

/-- First binding of a key, if any. -/
def lookupKey : Payload → String → Option Value
  | [], _ => none
  | kv :: rest, k => if kv.1 = k then some kv.2 else lookupKey rest k

/-- `obj[key]`: the bound value, or `undefined` when the key is missing. -/
def getField (p : Payload) (k : String) : Value :=
  (lookupKey p k).getD .undefined

/-- `Object.values(VideoQuality)` (lines 9-18 of the source). -/
def qualityValues : List String :=
  ["144p", "240p", "360p", "480p", "720p", "1080p", "1440p", "2160p"]

/-- The rule for `title` (line 81 of the source). -/
def titleRule : ValidationRule :=
  { fieldName := "title", isRequired := true, isString := true,
    minLength := some 1, maxLength := some 40 }

/-- The rule for `author` (line 82 of the source). -/
def authorRule : ValidationRule :=
  { fieldName := "author", isRequired := true, isString := true,
    minLength := some 1, maxLength := some 20 }

/-- The rule for `availableResolutions` (line 83 of the source). -/
def resolutionsRule : ValidationRule :=
  { fieldName := "availableResolutions", isArray := true, isRequired := true,
    enumValues := some qualityValues }

/-- The fixed rule list of `validateVideoInput` (lines 80-84). -/
def validationRules : List ValidationRule :=
  [titleRule, authorRule, resolutionsRule]

/-- `validateVideoInput` (lines 79-96): run `validateField` on each rule in
order, pushing every non-null message.  (The source pushes when the message is
truthy; every message `validateField` can produce is a non-empty string, so
this is push-when-some.) -/
def validateVideoInput (body : Payload) : List String :=
  validationRules.foldl
    (fun errors rule =>
      match validateField (getField body rule.fieldName) rule with
      | some e => errors ++ [e]
      | none => errors)
    []

/-- The fresh video object built by `POST /videos` (lines 124-133) at instant
`now`: `id = Date.now()`, `createdAt = now`, `publicationDate = now + 86400000`
(24 hours in milliseconds), `canBeDownloaded = body.canBeDownloaded || false`,
`minAgeRestriction = body.minAgeRestriction || null`,
`availableResolutions = body.availableResolutions || []`. -/
def newVideoObj (now : Nat) (body : Payload) : Payload :=
  [("id", .num (now : Int)),
   ("title", getField body "title"),
   ("author", getField body "author"),
   ("canBeDownloaded", jsOr (getField body "canBeDownloaded") (.bool false)),
   ("minAgeRestriction", jsOr (getField body "minAgeRestriction") .null),
   ("createdAt", .num (now : Int)),
   ("publicationDate", .num ((now : Int) + 86400000)),
   ("availableResolutions", jsOr (getField body "availableResolutions")
     (.arr []))]

/-- Outcome of `POST /videos`: 400 with the error list, or 201 with the new
entity. -/
inductive CreateResult where
  | validationFailed (errors : List String)
  | created (video : Payload)
  deriving Repr

/-- `POST /videos` (lines 112-137): validate, and only on success build the
new video and push it onto the store. -/
def postVideo (now : Nat) (body : Payload) (videos : List Payload) :
    List Payload × CreateResult :=
  let validationErrors := validateVideoInput body
  if validationErrors.length > 0 then
    (videos, .validationFailed validationErrors)
  else
    let newVideo := newVideoObj now body
    (videos ++ [newVideo], .created newVideo)

/-- `video.id === +req.params.id`: strict equality of the stored `id` value
against the numeric route parameter. -/
def idMatches (i : Int) (v : Payload) : Bool :=
  match getField v "id" with
  | .num n => n == i
  | _ => false

/-- `Array.prototype.findIndex` with explicit running index: the index of the
first element satisfying `p`, or `none` (for `-1`). -/
def findIndexFrom (p : Payload → Bool) (k : Nat) : List Payload → Option Nat
  | [] => none
  | v :: rest => if p v then some k else findIndexFrom p (k + 1) rest

/-- `videos.findIndex((video) => video.id === +req.params.id)`, as an
`Option Nat` (`none` for `-1`). -/
def findVideoIndex (i : Int) (videos : List Payload) : Option Nat :=
  findIndexFrom (idMatches i) 0 videos

/-- Object spread `{...base, ...overlay}`: the keys of `base` in order, each
overwritten by `overlay` when bound there, followed by the keys only in
`overlay`, in their order. -/
def mergeObj (base overlay : Payload) : Payload :=
  base.map (fun kv =>
    match lookupKey overlay kv.1 with
    | some v => (kv.1, v)
    | none => kv) ++
  overlay.filter (fun kv => (lookupKey base kv.1).isNone)

/-- Outcome of `PUT /videos/:id`: 400, 404, or 204 with no body. -/
inductive UpdateResult where
  | validationFailed (errors : List String)
  | notFound
  | noContent
  deriving Repr

/-- `PUT /videos/:id` (lines 139-170): validate first (before any lookup);
then look up by id; when found, `splice(index, 1, {...video, ...body})`. -/
def putVideo (i : Int) (body : Payload) (videos : List Payload) :
    List Payload × UpdateResult :=
  let validationErrors := validateVideoInput body
  if validationErrors.length > 0 then
    (videos, .validationFailed validationErrors)
  else
    match findVideoIndex i videos with
    | some k => (videos.set k (mergeObj (videos.getD k []) body), .noContent)
    | none => (videos, .notFound)

/-- `DELETE /videos/:id` (lines 172-181): look up by id; when found,
`splice(index, 1)` (remove exactly that element); the boolean is 204 vs 404. -/
def deleteVideo (i : Int) (videos : List Payload) : List Payload × Bool :=
  match findVideoIndex i videos with
  | some k => (videos.eraseIdx k, true)
  | none => (videos, false)

/-- One inbound mutating request, with the instant at which a create runs. -/
inductive Op where
  | post (now : Nat) (body : Payload)
  | put (i : Int) (body : Payload)
  | del (i : Int)

/-- The store after handling one request. -/
def applyOp (videos : List Payload) : Op → List Payload
  | .post now body => (postVideo now body videos).1
  | .put i body => (putVideo i body videos).1
  | .del i => (deleteVideo i videos).1

/-- The store after a sequence of requests, starting from the empty collection
the process boots with. -/
def runOps (ops : List Op) : List Payload :=
  ops.foldl applyOp []

/-- The ids of the stored entities, in store order. -/
def idsOf (videos : List Payload) : List Value :=
  videos.map (fun v => getField v "id")

/-! ### Helper lemmas about the validator -/

lemma foldl_push_eq_filterMap (f : ValidationRule → Option String) :
    ∀ (rules : List ValidationRule) (acc : List String),
      rules.foldl (fun errors rule =>
          match f rule with
          | some e => errors ++ [e]
          | none => errors) acc
        = acc ++ rules.filterMap f
  | [], acc => by simp
  | r :: rs, acc => by
      simp only [List.foldl_cons, List.filterMap_cons]
      cases h : f r with
      | none => simpa using foldl_push_eq_filterMap f rs acc
      | some e => simpa using foldl_push_eq_filterMap f rs (acc ++ [e])

/-- The entity validator is the concatenation of the three field-validator
results, in rule order. -/
lemma validateVideoInput_concat (body : Payload) :
    validateVideoInput body =
      (validateField (getField body "title") titleRule).toList ++
      (validateField (getField body "author") authorRule).toList ++
      (validateField (getField body "availableResolutions")
        resolutionsRule).toList := by
  have h := foldl_push_eq_filterMap
    (fun rule => validateField (getField body rule.fieldName) rule)
    validationRules []
  rw [validateVideoInput, h, List.nil_append, validationRules]
  simp only [List.filterMap_cons, List.filterMap_nil]
  have ht : titleRule.fieldName = "title" := rfl
  have ha : authorRule.fieldName = "author" := rfl
  have hr : resolutionsRule.fieldName = "availableResolutions" := rfl
  rw [ht, ha, hr]
  cases validateField (getField body "title") titleRule <;>
    cases validateField (getField body "author") authorRule <;>
      cases validateField (getField body "availableResolutions")
        resolutionsRule <;> simp

/-- A payload passes the entity validator iff each of the three field
validators returns no message. -/
lemma validateVideoInput_eq_nil (body : Payload)
    (h : validateVideoInput body = []) :
    validateField (getField body "title") titleRule = none ∧
    validateField (getField body "author") authorRule = none ∧
    validateField (getField body "availableResolutions")
      resolutionsRule = none := by
  rw [validateVideoInput_concat] at h
  rcases List.append_eq_nil.mp h with ⟨h12, h3⟩
  rcases List.append_eq_nil.mp h12 with ⟨h1, h2⟩
  refine ⟨?_, ?_, ?_⟩
  · cases hx : validateField (getField body "title") titleRule <;>
      simp [hx] at h1 ⊢
  · cases hx : validateField (getField body "author") authorRule <;>
      simp [hx] at h2 ⊢
  · cases hx : validateField (getField body "availableResolutions")
        resolutionsRule <;> simp [hx] at h3 ⊢

/-! ### Helper lemmas about lookup, merge and the store -/

lemma lookupKey_eq_none_of_no_key (p : Payload) (k : String)
    (h : ∀ kv ∈ p, kv.1 ≠ k) : lookupKey p k = none := by
  induction p with
  | nil => rfl
  | cons kv rest ih =>
      have hk : kv.1 ≠ k := h kv (List.mem_cons_self kv rest)
      simp only [lookupKey, if_neg hk]
      exact ih (fun x hx => h x (List.mem_cons_of_mem kv hx))

lemma lookupKey_append (p q : Payload) (k : String) :
    lookupKey (p ++ q) k =
      match lookupKey p k with
      | some v => some v
      | none => lookupKey q k := by
  induction p with
  | nil => rfl
  | cons kv rest ih =>
      by_cases hk : kv.1 = k
      · simp [lookupKey, hk]
      · simp [lookupKey, hk, ih]

lemma lookupKey_filter_eq_none (q : Payload) (g : String × Value → Bool)
    (k : String) (h : lookupKey q k = none) :
    lookupKey (q.filter g) k = none := by
  induction q with
  | nil => rfl
  | cons kv rest ih =>
      by_cases hk : kv.1 = k
      · simp [lookupKey, hk] at h
      · have hrest : lookupKey rest k = none := by
          simpa [lookupKey, hk] using h
        by_cases hg : g kv
        · simp [List.filter_cons, hg, lookupKey, hk, ih hrest]
        · simp [List.filter_cons, hg, ih hrest]

lemma lookupKey_subst_map (base overlay : Payload) (k : String) :
    lookupKey (base.map (fun kv =>
        match lookupKey overlay kv.1 with
        | some v => (kv.1, v)
        | none => kv)) k =
      match lookupKey base k with
      | some w =>
          (match lookupKey overlay k with
           | some v => some v
           | none => some w)
      | none => none := by
  induction base with
  | nil => rfl
  | cons kv rest ih =>
      by_cases hk : kv.1 = k
      · subst hk
        cases ho : lookupKey overlay kv.1 <;>
          simp [lookupKey, ho]
      · cases ho : lookupKey overlay kv.1 <;>
          simp [lookupKey, ho, hk, ih]

/-- When the overlay does not bind `k`, spreading it over `base` leaves the
`k` binding of `base` intact. -/
lemma lookupKey_mergeObj (base overlay : Payload) (k : String)
    (h : lookupKey overlay k = none) :
    lookupKey (mergeObj base overlay) k = lookupKey base k := by
  rw [mergeObj, lookupKey_append, lookupKey_subst_map]
  cases hb : lookupKey base k with
  | some w => simp [h]
  | none => simp [lookupKey_filter_eq_none overlay _ k h]

lemma getField_mergeObj (base overlay : Payload) (k : String)
    (h : lookupKey overlay k = none) :
    getField (mergeObj base overlay) k = getField base k := by
  rw [getField, getField, lookupKey_mergeObj base overlay k h]

lemma idsOf_set_merge (body : Payload) (hbody : lookupKey body "id" = none) :
    ∀ (videos : List Payload) (k : Nat),
      idsOf (videos.set k (mergeObj (videos.getD k []) body)) = idsOf videos
  | [], k => by cases k <;> rfl
  | v :: rest, 0 => by
      simp [idsOf, getField_mergeObj v body "id" hbody]
  | v :: rest, k + 1 => by
      have ih := idsOf_set_merge body hbody rest k
      simp only [List.set, List.getD, List.get?_cons_succ, idsOf,
        List.map_cons] at ih ⊢
      rw [ih]

/-- An update whose payload has no `id` key leaves every stored id (and their
order) unchanged, whatever the outcome of the request. -/
lemma idsOf_putVideo (i : Int) (body : Payload) (videos : List Payload)
    (hbody : ∀ kv ∈ body, kv.1 ≠ "id") :
    idsOf (putVideo i body videos).1 = idsOf videos := by
  have hk : lookupKey body "id" = none := lookupKey_eq_none_of_no_key body _ hbody
  rw [putVideo]
  by_cases hv : (validateVideoInput body).length > 0
  · simp [hv]
  · simp only [hv, if_false]
    cases hfi : findVideoIndex i videos with
    | none => rfl
    | some k => simpa using idsOf_set_merge body hk videos k

lemma findIndexFrom_eq_none (p : Payload → Bool) :
    ∀ (videos : List Payload) (k : Nat), (∀ v ∈ videos, p v = false) →
      findIndexFrom p k videos = none
  | [], _, _ => rfl
  | v :: rest, k, h => by
      have hv : p v = false := h v (List.mem_cons_self v rest)
      simp only [findIndexFrom, hv, if_false, Bool.false_eq_true]
      exact findIndexFrom_eq_none p rest (k + 1)
        (fun x hx => h x (List.mem_cons_of_mem v hx))

lemma findIndexFrom_append (p : Payload → Bool) (target : Payload)
    (post : List Payload) (htarget : p target = true) :
    ∀ (pre : List Payload) (k : Nat), (∀ v ∈ pre, p v = false) →
      findIndexFrom p k (pre ++ target :: post) = some (k + pre.length)
  | [], k, _ => by simp [findIndexFrom, htarget]
  | v :: rest, k, h => by
      have hv : p v = false := h v (List.mem_cons_self v rest)
      have ih := findIndexFrom_append p target post htarget rest (k + 1)
        (fun x hx => h x (List.mem_cons_of_mem v hx))
      simp only [List.cons_append, findIndexFrom, hv, if_false,
        Bool.false_eq_true, List.append_eq, ih, List.length_cons]
      congr 1
      omega

lemma eraseIdx_append_length :
    ∀ (pre : List Payload) (target : Payload) (post : List Payload),
      (pre ++ target :: post).eraseIdx pre.length = pre ++ post
  | [], _, _ => rfl
  | v :: rest, target, post => by
      simp only [List.cons_append, List.length_cons, List.eraseIdx,
        List.append_eq]
      rw [eraseIdx_append_length rest target post]

/-- A create whose payload validates appends exactly one new entity. -/
lemma postVideo_valid (now : Nat) (body : Payload) (videos : List Payload)
    (h : validateVideoInput body = []) :
    postVideo now body videos =
      (videos ++ [newVideoObj now body], .created (newVideoObj now body)) := by
  simp [postVideo, h]

lemma runOps_posts (reqs : List (Nat × Payload))
    (h : ∀ r ∈ reqs, validateVideoInput r.2 = []) :
    ∀ (videos : List Payload),
      (reqs.map (fun r => Op.post r.1 r.2)).foldl applyOp videos =
        videos ++ reqs.map (fun r => newVideoObj r.1 r.2) := by
  induction reqs with
  | nil => intro videos; simp
  | cons r rs ih =>
      intro videos
      have hr : validateVideoInput r.2 = [] := h r (List.mem_cons_self r rs)
      have hrs := ih (fun x hx => h x (List.mem_cons_of_mem r hx))
      simp only [List.map_cons, List.foldl_cons, applyOp,
        postVideo_valid r.1 r.2 videos hr, hrs]
      simp

/-! ### Helper lemmas about individual field rules -/

lemma validateField_title_short (s : String) (h : s.length = 0) :
    validateField (.str s) titleRule =
      some "Invalid title length (minimum 1 characters)." := by
  simp [validateField, titleRule, absentV, isStr, strLen, minErr, h]
  rfl

lemma validateField_title_long (s : String) (h : s.length > 40) :
    validateField (.str s) titleRule =
      some "Invalid title length (maximum 40 characters)." := by
  have h1 : ¬ s.length < 1 := by omega
  simp [validateField, titleRule, absentV, isStr, strLen, minErr, maxErr, h, h1]
  rfl

lemma validateField_author_short (s : String) (h : s.length = 0) :
    validateField (.str s) authorRule =
      some "Invalid author length (minimum 1 characters)." := by
  simp [validateField, authorRule, absentV, isStr, strLen, minErr, h]
  rfl

lemma validateField_author_long (s : String) (h : s.length > 20) :
    validateField (.str s) authorRule =
      some "Invalid author length (maximum 20 characters)." := by
  have h1 : ¬ s.length < 1 := by omega
  simp [validateField, authorRule, absentV, isStr, strLen, minErr, maxErr, h, h1]
  rfl

lemma firstInvalid_isSome (es : List String) (xs : List Value)
    (h : ∃ x ∈ xs, includesValue es x = false) :
    ∃ bad, firstInvalid es xs = some bad := by
  induction xs with
  | nil => simp at h
  | cons v rest ih =>
      by_cases hv : includesValue es v = true
      · obtain ⟨x, hx, hpx⟩ := h
        rcases List.mem_cons.mp hx with rfl | hx
        · rw [hv] at hpx; exact absurd hpx (by simp)
        · obtain ⟨bad, hbad⟩ := ih ⟨x, hx, hpx⟩
          exact ⟨bad, by simp [firstInvalid, hv, hbad]⟩
      · exact ⟨v, by simp [firstInvalid, hv]⟩

lemma validateField_resolutions_bad (xs : List Value)
    (h : ∃ x ∈ xs, includesValue qualityValues x = false) :
    ∃ e, validateField (.arr xs) resolutionsRule = some e := by
  obtain ⟨bad, hbad⟩ := firstInvalid_isSome qualityValues xs h
  exact ⟨"Invalid availableResolutions: " ++ jsToString bad,
    by simp [validateField, resolutionsRule, absentV, isStr, isArr, elemsV, hbad]⟩

/-- A value the `availableResolutions` rule accepts is necessarily an array:
absent values fail the required check and non-arrays fail the array check. -/
lemma resolutions_none_is_arr (v : Value)
    (h : validateField v resolutionsRule = none) : ∃ xs, v = .arr xs := by
  cases v with
  | arr xs => exact ⟨xs, rfl⟩
  | undefined => simp [validateField, resolutionsRule, absentV] at h
  | null => simp [validateField, resolutionsRule, absentV] at h
  | bool b => simp [validateField, resolutionsRule, absentV, isStr, isArr] at h
  | num n => simp [validateField, resolutionsRule, absentV, isStr, isArr] at h
  | str s => simp [validateField, resolutionsRule, absentV, isStr, isArr] at h

/-! ### Helper lemmas about id matching -/

lemma idMatches_false_of_ne (i : Int) (v : Payload)
    (h : getField v "id" ≠ Value.num i) : idMatches i v = false := by
  rw [idMatches]
  cases hg : getField v "id" with
  | num n =>
      have hne : n ≠ i := fun hni => h (by rw [hg, hni])
      simpa using hne
  | undefined => rfl
  | null => rfl
  | bool b => rfl
  | str s => rfl
  | arr xs => rfl

lemma idMatches_true_of_eq (i : Int) (v : Payload)
    (h : getField v "id" = Value.num i) : idMatches i v = true := by
  rw [idMatches, h]
  simp

lemma findVideoIndex_eq_none (i : Int) (videos : List Payload)
    (h : ∀ v ∈ videos, getField v "id" ≠ Value.num i) :
    findVideoIndex i videos = none :=
  findIndexFrom_eq_none (idMatches i) videos 0
    (fun v hv => idMatches_false_of_ne i v (h v hv))

/-! ### Claims -/

/-- C1 (counterexample): the claim fails — for the rule
`{fieldName: "x", isArray: true}` with `isRequired` false and the absent value
`undefined`, `validateField` does not skip check 3: it reports
"x must be an array.". -/
theorem absent_optional_array_value_fails :
    validateField Value.undefined { fieldName := "x", isArray := true } =
      some "x must be an array." := rfl

/-- C1 (amended): for a rule with `isRequired` false and an absent (undefined
or null) value, `validateField` returns no error only when `isString` and
`isArray` are also unset; the enum check alone is skipped, since it runs only
under `isArray`.  (When `isString` or `isArray` is set, the absent value fails
that type check: the source has no guard skipping checks 2-4.) -/
theorem validateField_absent_not_required (value : Value) (r : ValidationRule)
    (hreq : r.isRequired = false) (hstr : r.isString = false)
    (harr : r.isArray = false) (_habs : absentV value = true) :
    validateField value r = none := by
  cases he : r.enumValues <;> simp [validateField, hreq, hstr, harr, he]

/-- C1 witness: the amended theorem applied to a null value and a bare rule
with min/max lengths and enum values but no type flags. -/
theorem validateField_absent_not_required_witness :
    validateField Value.null
      { fieldName := "minAgeRestriction", minLength := some 1,
        maxLength := some 40, enumValues := some ["720p"] } = none :=
  validateField_absent_not_required Value.null
    { fieldName := "minAgeRestriction", minLength := some 1,
      maxLength := some 40, enumValues := some ["720p"] } rfl rfl rfl rfl

/-- C4 (confirmed): a valid create payload without `canBeDownloaded` and
`minAgeRestriction` is stored and returned with `canBeDownloaded = false`,
`minAgeRestriction = null`, and `publicationDate` exactly 24 hours
(86400000 ms) after `createdAt`. -/
theorem create_defaults_and_publication_date (now : Nat) (body : Payload)
    (videos : List Payload) (hval : validateVideoInput body = [])
    (hcbd : getField body "canBeDownloaded" = Value.undefined)
    (hmar : getField body "minAgeRestriction" = Value.undefined) :
    postVideo now body videos =
      (videos ++ [newVideoObj now body], .created (newVideoObj now body)) ∧
    getField (newVideoObj now body) "canBeDownloaded" = Value.bool false ∧
    getField (newVideoObj now body) "minAgeRestriction" = Value.null ∧
    getField (newVideoObj now body) "createdAt" = Value.num (now : Int) ∧
    getField (newVideoObj now body) "publicationDate" =
      Value.num ((now : Int) + 24 * 60 * 60 * 1000) := by
  refine ⟨postVideo_valid now body videos hval, ?_, ?_, rfl, ?_⟩
  · show jsOr (getField body "canBeDownloaded") (Value.bool false) =
      Value.bool false
    rw [hcbd]
    rfl
  · show jsOr (getField body "minAgeRestriction") Value.null = Value.null
    rw [hmar]
    rfl
  · show Value.num ((now : Int) + 86400000) =
      Value.num ((now : Int) + 24 * 60 * 60 * 1000)
    norm_num

/-- C4 witness: the theorem applied to the payload
`{title: "A", author: "B", availableResolutions: ["720p"]}` at instant 0. -/
theorem create_defaults_and_publication_date_witness :
    postVideo 0 [("title", Value.str "A"), ("author", Value.str "B"),
        ("availableResolutions", Value.arr [Value.str "720p"])] [] =
      ([] ++ [newVideoObj 0 [("title", Value.str "A"), ("author", Value.str "B"),
        ("availableResolutions", Value.arr [Value.str "720p"])]],
       .created (newVideoObj 0 [("title", Value.str "A"),
        ("author", Value.str "B"),
        ("availableResolutions", Value.arr [Value.str "720p"])])) ∧
    getField (newVideoObj 0 [("title", Value.str "A"), ("author", Value.str "B"),
        ("availableResolutions", Value.arr [Value.str "720p"])])
      "canBeDownloaded" = Value.bool false ∧
    getField (newVideoObj 0 [("title", Value.str "A"), ("author", Value.str "B"),
        ("availableResolutions", Value.arr [Value.str "720p"])])
      "minAgeRestriction" = Value.null ∧
    getField (newVideoObj 0 [("title", Value.str "A"), ("author", Value.str "B"),
        ("availableResolutions", Value.arr [Value.str "720p"])])
      "createdAt" = Value.num ((0 : Nat) : Int) ∧
    getField (newVideoObj 0 [("title", Value.str "A"), ("author", Value.str "B"),
        ("availableResolutions", Value.arr [Value.str "720p"])])
      "publicationDate" = Value.num (((0 : Nat) : Int) + 24 * 60 * 60 * 1000) :=
  create_defaults_and_publication_date 0
    [("title", Value.str "A"), ("author", Value.str "B"),
     ("availableResolutions", Value.arr [Value.str "720p"])] [] rfl rfl rfl

/-- C5 (counterexample): the claim fails — a create without
`availableResolutions` does not succeed with an empty default: the field is
required, so the request is rejected and nothing is stored. -/
theorem create_without_resolutions_rejected :
    postVideo 0 [("title", Value.str "A"), ("author", Value.str "B")] [] =
      ([], .validationFailed ["availableResolutions is required."]) := rfl

/-- C5 (amended): `availableResolutions` is required, so every payload that
passes validation carries an array value for it, and the created entity stores
exactly that array; the `|| []` default branch is never taken on a successful
create (an absent field is rejected beforehand). -/
theorem valid_create_stores_resolutions_as_given (now : Nat) (body : Payload)
    (videos : List Payload) (hval : validateVideoInput body = []) :
    ∃ xs, getField body "availableResolutions" = Value.arr xs ∧
      getField (newVideoObj now body) "availableResolutions" = Value.arr xs ∧
      (postVideo now body videos).1 = videos ++ [newVideoObj now body] := by
  obtain ⟨-, -, hres⟩ := validateVideoInput_eq_nil body hval
  obtain ⟨xs, hxs⟩ := resolutions_none_is_arr _ hres
  refine ⟨xs, hxs, ?_, by rw [postVideo_valid now body videos hval]⟩
  show jsOr (getField body "availableResolutions") (Value.arr []) = Value.arr xs
  rw [hxs]
  rfl

/-- C5 witness: the amended theorem applied to a valid payload with
resolutions `["144p", "2160p"]`. -/
theorem valid_create_stores_resolutions_as_given_witness :
    ∃ xs, getField [("title", Value.str "A"), ("author", Value.str "B"),
        ("availableResolutions", Value.arr [Value.str "144p", Value.str "2160p"])]
        "availableResolutions" = Value.arr xs ∧
      getField (newVideoObj 7 [("title", Value.str "A"), ("author", Value.str "B"),
        ("availableResolutions", Value.arr [Value.str "144p", Value.str "2160p"])])
        "availableResolutions" = Value.arr xs ∧
      (postVideo 7 [("title", Value.str "A"), ("author", Value.str "B"),
        ("availableResolutions", Value.arr [Value.str "144p", Value.str "2160p"])]
        []).1 =
        [] ++ [newVideoObj 7 [("title", Value.str "A"), ("author", Value.str "B"),
          ("availableResolutions",
            Value.arr [Value.str "144p", Value.str "2160p"])]] :=
  valid_create_stores_resolutions_as_given 7
    [("title", Value.str "A"), ("author", Value.str "B"),
     ("availableResolutions", Value.arr [Value.str "144p", Value.str "2160p"])]
    [] rfl

/-- C8 (confirmed): the entity validator returns exactly the concatenation of
the non-null field-validator results for the `title`, `author` and
`availableResolutions` rules, in that fixed order, with no short-circuit
across fields. -/
theorem entity_validator_concat_of_field_results (body : Payload) :
    validateVideoInput body =
      (validateField (getField body "title") titleRule).toList ++
      (validateField (getField body "author") authorRule).toList ++
      (validateField (getField body "availableResolutions")
        resolutionsRule).toList :=
  validateVideoInput_concat body

/-- C10 (confirmed): on a valid create, any falsy `minAgeRestriction` value
(0, empty string, false — and null/undefined) is stored as `null`, not as
given. -/
theorem create_falsy_minAge_stored_null (now : Nat) (body : Payload)
    (videos : List Payload) (hval : validateVideoInput body = [])
    (hfalsy : truthy (getField body "minAgeRestriction") = false) :
    (postVideo now body videos).2 = .created (newVideoObj now body) ∧
    getField (newVideoObj now body) "minAgeRestriction" = Value.null := by
  refine ⟨by rw [postVideo_valid now body videos hval], ?_⟩
  show jsOr (getField body "minAgeRestriction") Value.null = Value.null
  rw [jsOr, hfalsy]
  simp

/-- C10 witness: the theorem applied to a valid payload carrying
`minAgeRestriction: 0`. -/
theorem create_falsy_minAge_stored_null_witness :
    (postVideo 3 [("title", Value.str "A"), ("author", Value.str "B"),
        ("availableResolutions", Value.arr [Value.str "720p"]),
        ("minAgeRestriction", Value.num 0)] []).2 =
      .created (newVideoObj 3 [("title", Value.str "A"), ("author", Value.str "B"),
        ("availableResolutions", Value.arr [Value.str "720p"]),
        ("minAgeRestriction", Value.num 0)]) ∧
    getField (newVideoObj 3 [("title", Value.str "A"), ("author", Value.str "B"),
        ("availableResolutions", Value.arr [Value.str "720p"]),
        ("minAgeRestriction", Value.num 0)]) "minAgeRestriction" =
      Value.null :=
  create_falsy_minAge_stored_null 3
    [("title", Value.str "A"), ("author", Value.str "B"),
     ("availableResolutions", Value.arr [Value.str "720p"]),
     ("minAgeRestriction", Value.num 0)] [] rfl rfl

/-- C6 (confirmed): update validates before any lookup — on a non-empty error
list it signals ValidationFailed and leaves the store unchanged, whatever the
id; when validation passes and no stored entity carries the id, it signals
NotFound and leaves the store unchanged. -/
theorem update_validation_precedes_existence (i : Int) (body : Payload)
    (videos : List Payload) :
    (validateVideoInput body ≠ [] →
        putVideo i body videos =
          (videos, .validationFailed (validateVideoInput body))) ∧
    (validateVideoInput body = [] →
        (∀ v ∈ videos, getField v "id" ≠ Value.num i) →
        putVideo i body videos = (videos, .notFound)) := by
  constructor
  · intro h
    have hlen : (validateVideoInput body).length > 0 := List.length_pos.mpr h
    simp [putVideo, hlen]
  · intro hval hnone
    have hfi := findVideoIndex_eq_none i videos hnone
    simp [putVideo, hval, hfi]

/-- C6 witness: the theorem applied to an invalid body (empty object) against
a one-entity store, and to a valid body targeting an id that is not stored. -/
theorem update_validation_precedes_existence_witness :
    putVideo 7 [] [[("id", Value.num 7)]] =
      ([[("id", Value.num 7)]],
       .validationFailed (validateVideoInput [])) ∧
    putVideo 5 [("title", Value.str "A"), ("author", Value.str "B"),
        ("availableResolutions", Value.arr [])] [[("id", Value.num 7)]] =
      ([[("id", Value.num 7)]], .notFound) :=
  ⟨(update_validation_precedes_existence 7 [] [[("id", Value.num 7)]]).1
      (by decide),
   (update_validation_precedes_existence 5
      [("title", Value.str "A"), ("author", Value.str "B"),
       ("availableResolutions", Value.arr [])] [[("id", Value.num 7)]]).2 rfl
      (by
        intro v hv hc
        rcases List.mem_singleton.mp hv with rfl
        have h75 : (7 : Int) = 5 := by
          have := hc
          rw [show getField [("id", Value.num 7)] "id" = Value.num 7 from rfl]
            at this
          exact Value.num.inj this
        exact absurd h75 (by decide))⟩

/-- C7 (confirmed): a create whose payload has a title of length 0 or above
40, or an author of length 0 or above 20, or some resolutions element outside
the quality enum, is rejected with the validation errors and the store is
returned unchanged — validation happens before any mutation. -/
theorem create_invalid_payload_no_mutation (now : Nat) (body : Payload)
    (videos : List Payload)
    (h : (∃ s, getField body "title" = Value.str s ∧
            (s.length = 0 ∨ s.length > 40)) ∨
         (∃ s, getField body "author" = Value.str s ∧
            (s.length = 0 ∨ s.length > 20)) ∨
         (∃ xs, getField body "availableResolutions" = Value.arr xs ∧
            ∃ x ∈ xs, includesValue qualityValues x = false)) :
    validateVideoInput body ≠ [] ∧
    postVideo now body videos =
      (videos, .validationFailed (validateVideoInput body)) := by
  have hne : validateVideoInput body ≠ [] := by
    rw [validateVideoInput_concat]
    rcases h with ⟨s, hs, hlen⟩ | ⟨s, hs, hlen⟩ | ⟨xs, hxs, hbad⟩
    · rcases hlen with h0 | h40
      · rw [hs, validateField_title_short s h0]; simp
      · rw [hs, validateField_title_long s h40]; simp
    · rcases hlen with h0 | h20
      · rw [hs, validateField_author_short s h0]; simp
      · rw [hs, validateField_author_long s h20]; simp
    · obtain ⟨e, he⟩ := validateField_resolutions_bad xs hbad
      rw [hxs, he]; simp
  refine ⟨hne, ?_⟩
  have hlen2 : (validateVideoInput body).length > 0 := List.length_pos.mpr hne
  simp [postVideo, hlen2]

/-- C7 witness: the theorem applied to the payload
`{title: "", author: "B", availableResolutions: ["720p"]}` against a
one-entity store. -/
theorem create_invalid_payload_no_mutation_witness :
    validateVideoInput [("title", Value.str ""), ("author", Value.str "B"),
        ("availableResolutions", Value.arr [Value.str "720p"])] ≠ [] ∧
    postVideo 9 [("title", Value.str ""), ("author", Value.str "B"),
        ("availableResolutions", Value.arr [Value.str "720p"])]
        [[("id", Value.num 1)]] =
      ([[("id", Value.num 1)]],
       .validationFailed (validateVideoInput
         [("title", Value.str ""), ("author", Value.str "B"),
          ("availableResolutions", Value.arr [Value.str "720p"])])) :=
  create_invalid_payload_no_mutation 9
    [("title", Value.str ""), ("author", Value.str "B"),
     ("availableResolutions", Value.arr [Value.str "720p"])]
    [[("id", Value.num 1)]]
    (Or.inl ⟨"", rfl, Or.inl rfl⟩)

/-- C2 (counterexample): the claim fails — after a create at instant 1000 the
stored id is 1000, but an update whose (otherwise valid) payload carries
`id: 999` overwrites it: the spread merge does not protect `id`. -/
theorem update_payload_overwrites_id :
    idsOf (runOps [Op.post 1000 [("title", Value.str "A"),
        ("author", Value.str "B"),
        ("availableResolutions", Value.arr [Value.str "720p"])]]) =
      [Value.num 1000] ∧
    idsOf (runOps [Op.post 1000 [("title", Value.str "A"),
        ("author", Value.str "B"),
        ("availableResolutions", Value.arr [Value.str "720p"])],
      Op.put 1000 [("title", Value.str "A"), ("author", Value.str "B"),
        ("availableResolutions", Value.arr [Value.str "720p"]),
        ("id", Value.num 999)]]) = [Value.num 999] :=
  ⟨rfl, rfl⟩

/-- C2 (amended): the store assigns the id at creation time (the created
entity carries `id = now`), and an update whose payload has no `id` field
leaves every stored id unchanged; but a payload that does contain `id`
overwrites the stored id, since the source does not guard it. -/
theorem id_assigned_at_creation_and_kept_without_id_key :
    (∀ (now : Nat) (body : Payload) (videos : List Payload),
        validateVideoInput body = [] →
          (postVideo now body videos).1 = videos ++ [newVideoObj now body] ∧
          getField (newVideoObj now body) "id" = Value.num (now : Int)) ∧
    (∀ (i : Int) (body : Payload) (videos : List Payload),
        (∀ kv ∈ body, kv.1 ≠ "id") →
          idsOf (putVideo i body videos).1 = idsOf videos) := by
  constructor
  · intro now body videos h
    exact ⟨by rw [postVideo_valid now body videos h], rfl⟩
  · intro i body videos h
    exact idsOf_putVideo i body videos h

/-- C2 witness: both parts of the amended theorem at concrete inputs — a
valid create at instant 4, and an update without an `id` key against a
one-entity store. -/
theorem id_assigned_at_creation_and_kept_without_id_key_witness :
    ((postVideo 4 [("title", Value.str "A"), ("author", Value.str "B"),
        ("availableResolutions", Value.arr [])] []).1 =
      [] ++ [newVideoObj 4 [("title", Value.str "A"), ("author", Value.str "B"),
        ("availableResolutions", Value.arr [])]] ∧
      getField (newVideoObj 4 [("title", Value.str "A"),
        ("author", Value.str "B"),
        ("availableResolutions", Value.arr [])]) "id" =
        Value.num ((4 : Nat) : Int)) ∧
    idsOf (putVideo 4 [("title", Value.str "T"), ("author", Value.str "U"),
        ("availableResolutions", Value.arr [])]
        [[("id", Value.num 4)]]).1 = idsOf [[("id", Value.num 4)]] :=
  ⟨id_assigned_at_creation_and_kept_without_id_key.1 4
      [("title", Value.str "A"), ("author", Value.str "B"),
       ("availableResolutions", Value.arr [])] [] rfl,
   id_assigned_at_creation_and_kept_without_id_key.2 4
      [("title", Value.str "T"), ("author", Value.str "U"),
       ("availableResolutions", Value.arr [])]
      [[("id", Value.num 4)]] (by decide)⟩

/-- C3 (counterexample): the claim fails — ids are not pairwise distinct at
every observation point: create at instants 1000 and 2000, then update the
second entity with an (otherwise valid) payload carrying `id: 1000`; the
store then holds two entities with id 1000. -/
theorem duplicate_ids_reachable :
    idsOf (runOps [Op.post 1000 [("title", Value.str "A"),
        ("author", Value.str "B"),
        ("availableResolutions", Value.arr [Value.str "720p"])],
      Op.post 2000 [("title", Value.str "A"), ("author", Value.str "B"),
        ("availableResolutions", Value.arr [Value.str "720p"])],
      Op.put 2000 [("title", Value.str "A"), ("author", Value.str "B"),
        ("availableResolutions", Value.arr [Value.str "720p"]),
        ("id", Value.num 1000)]]) =
      [Value.num 1000, Value.num 1000] ∧
    ¬ ([Value.num 1000, Value.num 1000] : List Value).Nodup :=
  ⟨rfl, fun h => (List.nodup_cons.mp h).1 (List.mem_singleton.mpr rfl)⟩

/-- C3 (amended): pairwise-distinct ids are an invariant of the store under
the side conditions the code actually provides: a create preserves it when
the timestamp-derived id is not already present (two creates in the same
millisecond would collide), an update preserves it when its payload has no
`id` field (the source does not guard `id`), and a delete preserves it
unconditionally. -/
theorem distinct_ids_preservation (videos : List Payload)
    (h : (idsOf videos).Nodup) :
    (∀ (now : Nat) (body : Payload),
        Value.num (now : Int) ∉ idsOf videos →
          (idsOf (postVideo now body videos).1).Nodup) ∧
    (∀ (i : Int) (body : Payload), (∀ kv ∈ body, kv.1 ≠ "id") →
        (idsOf (putVideo i body videos).1).Nodup) ∧
    (∀ i : Int, (idsOf (deleteVideo i videos).1).Nodup) := by
  refine ⟨?_, ?_, ?_⟩
  · intro now body hmem
    by_cases hv : (validateVideoInput body).length > 0
    · simpa [postVideo, hv] using h
    · have hval : validateVideoInput body = [] := by
        cases hval2 : validateVideoInput body with
        | nil => rfl
        | cons a l => rw [hval2] at hv; simp at hv
      rw [postVideo_valid now body videos hval]
      have hid : getField (newVideoObj now body) "id" =
          Value.num (now : Int) := rfl
      simp only [idsOf, List.map_append, List.map_cons, List.map_nil, hid]
      rw [List.nodup_append]
      refine ⟨h, List.nodup_singleton _, ?_⟩
      intro a ha hb
      rw [List.mem_singleton] at hb
      subst hb
      exact hmem ha
  · intro i body hbody
    rw [idsOf_putVideo i body videos hbody]
    exact h
  · intro i
    rw [deleteVideo]
    cases hfi : findVideoIndex i videos with
    | none => simpa using h
    | some k =>
        simp only
        exact List.Nodup.sublist
          (List.Sublist.map _ (List.eraseIdx_sublist videos k)) h

/-- C3 witness: the invariant-preservation theorem applied to the one-entity
store `[{id: 1}]` — a create at instant 2, an update without an `id` key, and
a delete of id 1. -/
theorem distinct_ids_preservation_witness :
    (idsOf (postVideo 2 [("title", Value.str "A"), ("author", Value.str "B"),
        ("availableResolutions", Value.arr [])]
        [[("id", Value.num 1)]]).1).Nodup ∧
    (idsOf (putVideo 1 [("title", Value.str "A"), ("author", Value.str "B"),
        ("availableResolutions", Value.arr [])]
        [[("id", Value.num 1)]]).1).Nodup ∧
    (idsOf (deleteVideo 1 [[("id", Value.num 1)]]).1).Nodup := by
  have hnd : (idsOf [[("id", Value.num 1)]]).Nodup := List.nodup_singleton _
  have hmem : Value.num ((2 : Nat) : Int) ∉ idsOf [[("id", Value.num 1)]] := by
    intro hm
    rw [show idsOf [[("id", Value.num 1)]] = [Value.num 1] from rfl,
      List.mem_singleton] at hm
    exact absurd (Value.num.inj hm) (by decide)
  exact ⟨(distinct_ids_preservation [[("id", Value.num 1)]] hnd).1 2
      [("title", Value.str "A"), ("author", Value.str "B"),
       ("availableResolutions", Value.arr [])] hmem,
    (distinct_ids_preservation [[("id", Value.num 1)]] hnd).2.1 1
      [("title", Value.str "A"), ("author", Value.str "B"),
       ("availableResolutions", Value.arr [])] (by decide),
    (distinct_ids_preservation [[("id", Value.num 1)]] hnd).2.2 1⟩

/-- C9 (confirmed): after a sequence of successful creates the store is the
created entities in insertion order; deleting the (unique) entity matching an
id removes exactly that entity, keeps the others in their relative order, and
leaves N - 1 entities. -/
theorem list_after_creates_then_delete (reqs : List (Nat × Payload))
    (hv : ∀ r ∈ reqs, validateVideoInput r.2 = []) (i : Int)
    (pre post : List Payload) (target : Payload)
    (hsplit : runOps (reqs.map (fun r => Op.post r.1 r.2)) =
      pre ++ target :: post)
    (hid : getField target "id" = Value.num i)
    (hpre : ∀ v ∈ pre, getField v "id" ≠ Value.num i) :
    deleteVideo i (runOps (reqs.map (fun r => Op.post r.1 r.2))) =
      (pre ++ post, true) ∧
    (pre ++ post).length + 1 = reqs.length := by
  have hlen : (pre ++ target :: post).length = reqs.length := by
    rw [← hsplit, runOps, runOps_posts reqs hv []]
    simp
  constructor
  · have hfind : findVideoIndex i (pre ++ target :: post) =
        some pre.length := by
      have := findIndexFrom_append (idMatches i) target post
        (idMatches_true_of_eq i target hid) pre 0
        (fun v hv2 => idMatches_false_of_ne i v (hpre v hv2))
      simpa [findVideoIndex] using this
    rw [hsplit, deleteVideo, hfind]
    simp only
    rw [eraseIdx_append_length pre target post]
  · simp only [List.length_append, List.length_cons] at hlen ⊢
    omega

/-- C9 witness: two creates (instants 1 and 2) followed by deleting id 1
leaves exactly the entity created second. -/
theorem list_after_creates_then_delete_witness :
    deleteVideo 1 (runOps ([((1 : Nat), ([("title", Value.str "A"),
        ("author", Value.str "B"),
        ("availableResolutions", Value.arr [Value.str "720p"])] : Payload)),
      ((2 : Nat), ([("title", Value.str "A"), ("author", Value.str "B"),
        ("availableResolutions", Value.arr [Value.str "720p"])] : Payload))].map
        (fun r => Op.post r.1 r.2))) =
      ([] ++ [newVideoObj 2 [("title", Value.str "A"), ("author", Value.str "B"),
        ("availableResolutions", Value.arr [Value.str "720p"])]], true) ∧
    (([] : List Payload) ++ [newVideoObj 2 [("title", Value.str "A"),
        ("author", Value.str "B"),
        ("availableResolutions", Value.arr [Value.str "720p"])]]).length + 1 =
      ([((1 : Nat), ([("title", Value.str "A"), ("author", Value.str "B"),
        ("availableResolutions", Value.arr [Value.str "720p"])] : Payload)),
      ((2 : Nat), ([("title", Value.str "A"), ("author", Value.str "B"),
        ("availableResolutions", Value.arr [Value.str "720p"])] : Payload))]).length :=
  list_after_creates_then_delete
    [((1 : Nat), ([("title", Value.str "A"), ("author", Value.str "B"),
        ("availableResolutions", Value.arr [Value.str "720p"])] : Payload)),
     ((2 : Nat), ([("title", Value.str "A"), ("author", Value.str "B"),
        ("availableResolutions", Value.arr [Value.str "720p"])] : Payload))]
    (by decide) 1 []
    [newVideoObj 2 [("title", Value.str "A"), ("author", Value.str "B"),
      ("availableResolutions", Value.arr [Value.str "720p"])]]
    (newVideoObj 1 [("title", Value.str "A"), ("author", Value.str "B"),
      ("availableResolutions", Value.arr [Value.str "720p"])])
    rfl rfl (fun v hv => absurd hv (List.not_mem_nil v))

end BackProject
